import Mathlib

/-!
# node-loot: the wrapper around the load-order engine (`src/lootwrapper.cpp`)

A shallow embedding of the wrapper and the properties of its error translation,
its asynchronous workers and its value conversions.

Conventions of the embedding.

* A `std::string` is a sequence of bytes, `StdString`.  A string that the host passes in
  (a game identifier, a path, a plugin name) arrives as valid UTF-8 and is kept as the
  text it encodes, a `String`, in which the byte `0` is the character `NUL`; so is the
  message `what()` of an exception.  A string of the engine that the wrapper turns into a
  V8 string (the elements of a result, the name of a vertex) is kept as its bytes.
* A `const char *` is modelled by what stands in front of its terminator, so `c_str()` is
  the function `c_str` on texts and `StdString.c_str` on bytes.
* A V8 string made from UTF-8 holds Unicode scalar values and is a `String`.  On a string
  that holds valid UTF-8 the two views agree: decoding the bytes in front of the first
  zero byte gives the text in front of the first `NUL` (`Nan.New_c_str_utf8`).
* A C++ call ends in `Except Thrown α`: it returns a value or throws.
* What the host sees of a V8 value is a plain Lean value (`JsError`, `JsArg`, ...).
* The engine (libloot), nbind, Nan and V8 are not part of the file; what the wrapper
  calls in them is a parameter of the definition that calls it, or a definition whose
  comment says what it is modelled from.
-/

namespace NodeLoot

/-! ## Strings -/

/-- The NUL byte, which terminates a C string. -/
def NUL : Char := Char.ofNat 0

/-- The text seen through `s.c_str()` by a reader of C strings (`Nan::New(const char *)`,
`operator<<`): the characters in front of the first NUL. -/
def c_str (s : String) : String := ⟨s.data.takeWhile (fun c => c != NUL)⟩

/-- A byte of a `std::string`. -/
abbrev Byte := Fin 256

/-- A `std::string` as the engine hands it over: any sequence of bytes. -/
abbrev StdString := List Byte

/-- The bytes seen through `s.c_str()` by a reader of C strings: those in front of the
first zero byte. -/
def StdString.c_str (s : StdString) : List Byte := s.takeWhile (fun b => b != 0)

/-- The character U+FFFD, which a decoder puts in the place of bytes that are not UTF-8. -/
def replacementCharacter : Char := Char.ofNat 0xFFFD

/-- The least second byte that may follow the lead byte `b0` of a sequence of three or
four bytes. -/
def secondByteLow (b0 : Nat) : Nat :=
  if b0 = 0xE0 then 0xA0 else if b0 = 0xF0 then 0x90 else 0x80

/-- The greatest second byte that may follow the lead byte `b0` of a sequence of three or
four bytes. -/
def secondByteHigh (b0 : Nat) : Nat :=
  if b0 = 0xED then 0x9F else if b0 = 0xF4 then 0x8F else 0xBF

/-- Whether `b` is a continuation byte. -/
def isContinuation (b : Nat) : Bool := decide (0x80 ≤ b) && decide (b ≤ 0xBF)

/-- Whether `b1` may follow the lead byte `b0` of a sequence of three or four bytes. -/
def isSecondByte (b0 b1 : Nat) : Bool :=
  decide (secondByteLow b0 ≤ b1) && decide (b1 ≤ secondByteHigh b0)

/-- Modelled from the spec: the UTF-8 decoder of V8, which is not in the sources (section
4.1 names the encoding).  It works on the values of the bytes.  A well-formed sequence
gives its scalar value; where a sequence goes wrong, the bytes read so far give one
U+FFFD and decoding goes on at the byte that did not fit. -/
def utf8Decode : List Nat → List Char
  | [] => []
  | b0 :: rest =>
    if b0 < 0x80 then Char.ofNat b0 :: utf8Decode rest
    else if 0xC2 ≤ b0 ∧ b0 ≤ 0xDF then
      match rest with
      | [] => [replacementCharacter]
      | b1 :: rest1 =>
        if isContinuation b1 then
          Char.ofNat ((b0 - 0xC0) * 64 + (b1 - 0x80)) :: utf8Decode rest1
        else replacementCharacter :: utf8Decode (b1 :: rest1)
    else if 0xE0 ≤ b0 ∧ b0 ≤ 0xEF then
      match rest with
      | [] => [replacementCharacter]
      | b1 :: rest1 =>
        if isSecondByte b0 b1 then
          match rest1 with
          | [] => [replacementCharacter]
          | b2 :: rest2 =>
            if isContinuation b2 then
              Char.ofNat ((b0 - 0xE0) * 4096 + (b1 - 0x80) * 64 + (b2 - 0x80))
                :: utf8Decode rest2
            else replacementCharacter :: utf8Decode (b2 :: rest2)
        else replacementCharacter :: utf8Decode (b1 :: rest1)
    else if 0xF0 ≤ b0 ∧ b0 ≤ 0xF4 then
      match rest with
      | [] => [replacementCharacter]
      | b1 :: rest1 =>
        if isSecondByte b0 b1 then
          match rest1 with
          | [] => [replacementCharacter]
          | b2 :: rest2 =>
            if isContinuation b2 then
              match rest2 with
              | [] => [replacementCharacter]
              | b3 :: rest3 =>
                if isContinuation b3 then
                  Char.ofNat ((b0 - 0xF0) * 262144 + (b1 - 0x80) * 4096 + (b2 - 0x80) * 64
                      + (b3 - 0x80))
                    :: utf8Decode rest3
                else replacementCharacter :: utf8Decode (b3 :: rest3)
            else replacementCharacter :: utf8Decode (b2 :: rest2)
        else replacementCharacter :: utf8Decode (b1 :: rest1)
    else replacementCharacter :: utf8Decode rest

/-- Modelled from the spec: `Nan::New(const char *)`, that is `v8::String::NewFromUtf8` of
the V8 library, which is not in the sources: the V8 string decoded from the bytes of a C
string.  The argument is what stands in front of the terminator. -/
def Nan.New (value : List Byte) : String := ⟨utf8Decode (value.map Fin.val)⟩

/-- The UTF-8 encoding of one character, as the values of its bytes. -/
def utf8EncodeChar (c : Char) : List Nat :=
  if c.toNat < 0x80 then [c.toNat]
  else if c.toNat < 0x800 then [0xC0 + c.toNat / 64, 0x80 + c.toNat % 64]
  else if c.toNat < 0x10000 then
    [0xE0 + c.toNat / 4096, 0x80 + c.toNat / 64 % 64, 0x80 + c.toNat % 64]
  else
    [0xF0 + c.toNat / 262144, 0x80 + c.toNat / 4096 % 64, 0x80 + c.toNat / 64 % 64,
      0x80 + c.toNat % 64]

/-- The UTF-8 encoding of a sequence of characters, as the values of its bytes. -/
def utf8Encode : List Char → List Nat
  | [] => []
  | c :: cs => utf8EncodeChar c ++ utf8Encode cs

/-- The `std::string` that holds a text in UTF-8.  A `std::string` holds valid UTF-8 when
it is `utf8 text` for some text. -/
def utf8 (text : String) : StdString :=
  (utf8Encode text.data).map (fun n => Fin.ofNat n)

/-! ## Exceptions -/

/-- One node of a path reported by the engine (`loot::Vertex`): `GetName()` and
`GetTypeOfEdgeToNextVertex()`, a `std::optional`. -/
structure Vertex (EdgeType : Type) where
  name : StdString
  typeOfEdgeToNextVertex : Option EdgeType
  deriving DecidableEq, Repr

/-- The engine's `loot::CyclicInteractionError` (a `std::runtime_error`): `what()` and
`GetCycle()`. -/
structure CyclicInteractionError (EdgeType : Type) where
  what : String
  cycle : List (Vertex EdgeType)
  deriving DecidableEq, Repr

/-- What a C++ call can throw, as far as the handlers of the file tell things apart. -/
inductive Thrown (EdgeType : Type) where
  /-- `struct UnsupportedGame : std::runtime_error`. -/
  | UnsupportedGame
  /-- `struct BusyException : std::runtime_error`. -/
  | BusyException
  /-- `loot::CyclicInteractionError`. -/
  | cyclic (e : CyclicInteractionError EdgeType)
  /-- Any other class derived from `std::exception`, with its `what()`. -/
  | exception (what : String)
  /-- Anything that is not a `std::exception`: only `catch (...)` handles it. -/
  | unknown
  deriving DecidableEq, Repr

/-- The `what()` of a thrown object that `catch (const std::exception &e)` handles;
`none` for an object that this handler lets through. -/
def Thrown.what {EdgeType : Type} : Thrown EdgeType → Option String
  | .UnsupportedGame => some "game not supported"
  | .BusyException => some "Loot connection is busy"
  | .cyclic e => some e.what
  | .exception w => some w
  | .unknown => none

/-! ## Game identifiers -/

/-- The engine's `loot::GameType`, as far as `convertGameId` names it. -/
inductive GameType where
  | tes4 | tes5 | tes5se | tes5vr | fo3 | fonv | fo4 | fo4vr
  deriving DecidableEq, Repr

/-- The `std::map` built in `Loot::convertGameId`. -/
def gameMap : List (String × GameType) :=
  [ ("oblivion", .tes4),
    ("skyrim", .tes5),
    ("skyrimse", .tes5se),
    ("skyrimvr", .tes5vr),
    ("fallout3", .fo3),
    ("falloutnv", .fonv),
    ("fallout4", .fo4),
    ("fallout4vr", .fo4vr) ]

/-- `Loot::convertGameId`: `gameMap.find(gameId)`, throwing `UnsupportedGame` at `end()`. -/
def convertGameId {EdgeType : Type} (gameId : String) : Except (Thrown EdgeType) GameType :=
  match gameMap.lookup gameId with
  | none => .error .UnsupportedGame
  | some g => .ok g

/-- The eight identifiers the specification calls known. -/
def knownGameIds : List String :=
  ["oblivion", "skyrim", "skyrimse", "skyrimvr", "fallout3", "falloutnv", "fallout4",
    "fallout4vr"]

/-! ## Values handed to the host -/

/-- The object `vert` built for one vertex of a cycle, with the two properties set on it. -/
structure JsVertex where
  name : String
  typeOfEdgeToNextVertex : String
  deriving DecidableEq, Repr

/-- The value of a property set on an error object. -/
inductive JsProp where
  | string (s : String)
  | vertices (vs : List JsVertex)
  deriving DecidableEq, Repr

/-- A JavaScript `Error` object: its message and the properties set on it afterwards, in
the order of the `Set` calls. -/
structure JsError where
  message : String
  props : List (String × JsProp)
  deriving DecidableEq, Repr

/-- The property of that name on an error object, if it was set. -/
def JsError.prop (e : JsError) (key : String) : Option JsProp := e.props.lookup key

/-- `Nan::Error(const char *)` and `Nan::ThrowError(const char *)`: an error with a message
and no further property. -/
def JsError.plain (message : String) : JsError := { message := message, props := [] }

/-- The body of the loop of `CyclicalInteractionException` for one vertex.  The source
applies `*` to `GetTypeOfEdgeToNextVertex()` without a test: on an empty optional the
behaviour is undefined, and what the run reads there is the parameter `indeterminate`. -/
def convertVertex {EdgeType : Type} (convertEdgeType : EdgeType → String)
    (indeterminate : EdgeType) (iter : Vertex EdgeType) : JsVertex :=
  { name := Nan.New (StdString.c_str iter.name),
    typeOfEdgeToNextVertex :=
      convertEdgeType (match iter.typeOfEdgeToNextVertex with
        | some t => t
        | none => indeterminate) }

/-- The loop of `CyclicalInteractionException`: `cycle->Set(idx++, vert)` for every vertex,
`idx` being the length of `cycle` at each `Set`. -/
def convertCycle {EdgeType : Type} (convertEdgeType : EdgeType → String)
    (indeterminate : EdgeType) : List (Vertex EdgeType) → List JsVertex → List JsVertex
  | [], cycle => cycle
  | iter :: rest, cycle =>
    convertCycle convertEdgeType indeterminate rest
      (cycle ++ [convertVertex convertEdgeType indeterminate iter])

/-- `CyclicalInteractionException`: an error with the message `err.what()` and the property
`cycle`.  `Vertex::convertEdgeType` is declared outside the file and is a parameter. -/
def CyclicalInteractionException {EdgeType : Type} (convertEdgeType : EdgeType → String)
    (indeterminate : EdgeType) (err : CyclicInteractionError EdgeType) : JsError :=
  { message := err.what,
    props := [("cycle", .vertices (convertCycle convertEdgeType indeterminate err.cycle []))] }

/-- `InvalidParameter(func, arg, value)`, the three arguments being C strings. -/
def InvalidParameter (func arg value : String) : JsError :=
  { message := c_str ("Invalid value passed to \"" ++ func ++ "\""),
    props := [("arg", .string arg), ("value", .string value), ("func", .string func)] }

/-- The specialisation `ToV8<std::vector<std::string>>`: `res->Set(counter++, ...)` for
every string, `counter` being the length of `res` at each `Set`. -/
def ToV8 (value : List StdString) : List String :=
  value.foldl (fun res val => res ++ [Nan.New (StdString.c_str val)]) []

/-! ## Asynchronous workers -/

/-- One argument of a call of the completion callback: `Nan::Null()`, a converted result,
or the `Error` that `Nan::AsyncWorker::HandleErrorCallback` builds from a message. -/
inductive JsArg (V : Type) where
  | null
  | value (v : V)
  | error (message : String)
  deriving DecidableEq, Repr

/-- What a task does on the caller's thread. -/
inductive Event (V : Type) where
  /-- A call of `m_IntCallback`. -/
  | bookkeeping
  /-- A call `callback->Call(argc, argv)` of the caller's completion callback. -/
  | completion (argv : List (JsArg V))
  deriving DecidableEq, Repr

/-- The caller's thread as a task sees it: the state the internal callback works on and
the calls made so far, latest last. -/
structure Host (σ V : Type) where
  state : σ
  trace : List (Event V)

/-- The class template `Worker<ResT>` on top of `Nan::AsyncWorker`.  `errmsg_` is the
field of the base class, `NULL` (here `none`) until `SetErrorMessage`.  The unit of work
ends by returning or by throwing; the internal callback is taken to return. -/
structure Worker (EdgeType ResT σ : Type) where
  m_Result : ResT
  m_Func : Unit → Except (Thrown EdgeType) ResT
  m_IntCallback : σ → σ
  errmsg_ : Option String

/-- The constructor of `Worker<ResT>`; `m_Result` is default-initialised. -/
def Worker.new {EdgeType ResT σ : Type} [Inhabited ResT]
    (func : Unit → Except (Thrown EdgeType) ResT) (internalCallback : σ → σ) :
    Worker EdgeType ResT σ :=
  { m_Result := default, m_Func := func, m_IntCallback := internalCallback, errmsg_ := none }

/-- Modelled from the spec: `Nan::AsyncWorker::SetErrorMessage`, a member of the base class
in the Nan library and not in the sources.  It keeps a copy of the message, which marks
the task as failed (section 4.4). -/
def Worker.SetErrorMessage {EdgeType ResT σ : Type} (w : Worker EdgeType ResT σ)
    (msg : String) : Worker EdgeType ResT σ :=
  { w with errmsg_ := some msg }

/-- `Worker<ResT>::Execute`. -/
def Worker.Execute {EdgeType ResT σ : Type} (w : Worker EdgeType ResT σ) :
    Worker EdgeType ResT σ :=
  match w.m_Func () with
  | .ok r => { w with m_Result := r }
  | .error t =>
    match t.what with
    | some what => w.SetErrorMessage what
    | none => w.SetErrorMessage "unknown exception"

/-- `Worker<ResT>::HandleOKCallback`; `toV8` is the instance of `ToV8` at `ResT`. -/
def Worker.HandleOKCallback {EdgeType ResT σ V : Type} (toV8 : ResT → V)
    (w : Worker EdgeType ResT σ) (h : Host σ V) : Host σ V :=
  let argv := [JsArg.null, JsArg.value (toV8 w.m_Result)]
  let h : Host σ V :=
    { state := w.m_IntCallback h.state, trace := h.trace ++ [Event.bookkeeping] }
  { state := h.state, trace := h.trace ++ [Event.completion argv] }

/-- Modelled from the spec: `Nan::AsyncWorker::HandleErrorCallback`, a member of the base
class in the Nan library and not in the sources.  The completion callback is called with
one argument, an `Error` whose message is the message kept (section 4.4, the error
path). -/
def AsyncWorker.HandleErrorCallback {σ V : Type} (errmsg_ : String) (h : Host σ V) :
    Host σ V :=
  { state := h.state, trace := h.trace ++ [Event.completion [JsArg.error errmsg_]] }

/-- `Worker<ResT>::HandleErrorCallback`. -/
def Worker.HandleErrorCallback {EdgeType ResT σ V : Type} (w : Worker EdgeType ResT σ)
    (errmsg_ : String) (h : Host σ V) : Host σ V :=
  let h : Host σ V :=
    { state := w.m_IntCallback h.state, trace := h.trace ++ [Event.bookkeeping] }
  AsyncWorker.HandleErrorCallback errmsg_ h

/-- Modelled from the spec: `Nan::AsyncWorker::WorkComplete`, a member of the base class in
the Nan library and not in the sources.  The success path runs when no message was kept,
the error path otherwise (section 4.4). -/
def Worker.WorkComplete {EdgeType ResT σ V : Type} (toV8 : ResT → V)
    (w : Worker EdgeType ResT σ) (h : Host σ V) : Host σ V :=
  match w.errmsg_ with
  | none => w.HandleOKCallback toV8 h
  | some msg => w.HandleErrorCallback msg h

/-- Modelled from the spec: one task from `Nan::AsyncQueueWorker`, which is in the Nan
library and not in the sources, to its end: `Execute` on a worker thread, then
`WorkComplete` on the caller's thread (section 4.4: running, then delivered). -/
def Worker.run {EdgeType ResT σ V : Type} (toV8 : ResT → V)
    (w : Worker EdgeType ResT σ) (h : Host σ V) : Host σ V :=
  w.Execute.WorkComplete toV8 h

/-- The specialisation `Worker<void>`. -/
structure WorkerVoid (EdgeType σ : Type) where
  m_Func : Unit → Except (Thrown EdgeType) Unit
  m_IntCallback : σ → σ
  errmsg_ : Option String

/-- The constructor of `Worker<void>`. -/
def WorkerVoid.new {EdgeType σ : Type}
    (func : Unit → Except (Thrown EdgeType) Unit) (internalCallback : σ → σ) :
    WorkerVoid EdgeType σ :=
  { m_Func := func, m_IntCallback := internalCallback, errmsg_ := none }

/-- Modelled from the spec: `Nan::AsyncWorker::SetErrorMessage` as above, for
`Worker<void>`. -/
def WorkerVoid.SetErrorMessage {EdgeType σ : Type} (w : WorkerVoid EdgeType σ)
    (msg : String) : WorkerVoid EdgeType σ :=
  { w with errmsg_ := some msg }

/-- `Worker<void>::Execute`. -/
def WorkerVoid.Execute {EdgeType σ : Type} (w : WorkerVoid EdgeType σ) :
    WorkerVoid EdgeType σ :=
  match w.m_Func () with
  | .ok () => w
  | .error t =>
    match t.what with
    | some what => w.SetErrorMessage what
    | none => w.SetErrorMessage "unknown exception"

/-- `Worker<void>::HandleOKCallback`. -/
def WorkerVoid.HandleOKCallback {EdgeType σ V : Type} (w : WorkerVoid EdgeType σ)
    (h : Host σ V) : Host σ V :=
  let argv : List (JsArg V) := [JsArg.null]
  let h : Host σ V :=
    { state := w.m_IntCallback h.state, trace := h.trace ++ [Event.bookkeeping] }
  { state := h.state, trace := h.trace ++ [Event.completion argv] }

/-- `Worker<void>::HandleErrorCallback`. -/
def WorkerVoid.HandleErrorCallback {EdgeType σ V : Type} (w : WorkerVoid EdgeType σ)
    (errmsg_ : String) (h : Host σ V) : Host σ V :=
  let h : Host σ V :=
    { state := w.m_IntCallback h.state, trace := h.trace ++ [Event.bookkeeping] }
  AsyncWorker.HandleErrorCallback errmsg_ h

/-- Modelled from the spec: `Nan::AsyncWorker::WorkComplete` as above, for
`Worker<void>`. -/
def WorkerVoid.WorkComplete {EdgeType σ V : Type} (w : WorkerVoid EdgeType σ)
    (h : Host σ V) : Host σ V :=
  match w.errmsg_ with
  | none => w.HandleOKCallback h
  | some msg => w.HandleErrorCallback msg h

/-- Modelled from the spec: one `Worker<void>` task from `Nan::AsyncQueueWorker` to its
end, as above. -/
def WorkerVoid.run {EdgeType σ V : Type} (w : WorkerVoid EdgeType σ) (h : Host σ V) :
    Host σ V :=
  w.Execute.WorkComplete h

/-! ## The session: `class Loot` -/

/-- A plugin group of the engine (`loot::Group`).  Its `operator==` and its `std::hash`
look at the name only: two groups of one name are the same group. -/
structure Group where
  name : String
  afterGroups : List String
  deriving DecidableEq, Repr

/-- The wrapper `PluginMetadata`: the engine's record and the language it was built with. -/
structure PluginMetadata (Meta : Type) where
  m_Wrapped : Meta
  m_Language : String
  deriving DecidableEq, Repr

/-- The methods that the wrapper calls on `m_Game` and on `m_Game->GetDatabase()`, each
with the way the call ends. -/
structure GameInterface (EdgeType Meta : Type) where
  UpdateMasterlist : String → String → String → Except (Thrown EdgeType) Bool
  LoadLists : String → String → Except (Thrown EdgeType) Unit
  LoadPlugins : List String → Bool → Except (Thrown EdgeType) Unit
  GetPluginMetadata : String → Bool → Bool → Except (Thrown EdgeType) (Option Meta)
  SortPlugins : List String → Except (Thrown EdgeType) (List String)
  GetLoadOrder : Unit → Except (Thrown EdgeType) (List String)
  SetUserGroups : List Group → Except (Thrown EdgeType) Unit

/-- The two free functions of the engine that the constructor calls. -/
structure Engine (EdgeType Meta : Type) where
  InitialiseLocale : String → Except (Thrown EdgeType) Unit
  CreateGameHandle :
    GameType → String → String → Except (Thrown EdgeType) (GameInterface EdgeType Meta)

/-- A call into the engine, with its arguments. -/
inductive EngineCall where
  | InitialiseLocale (language : String)
  | CreateGameHandle (game : GameType) (gamePath gameLocalPath : String)
  | SetUserGroups (groups : List Group)
  deriving DecidableEq, Repr

/-- Whether a call is a call of `loot::CreateGameHandle`. -/
def EngineCall.isCreateGameHandle : EngineCall → Bool
  | .CreateGameHandle _ _ _ => true
  | _ => false

/-- The fields of `class Loot` that the file reads; `m_Game` is a null pointer until
`CreateGameHandle` has returned. -/
structure Loot (EdgeType Meta : Type) where
  m_Language : String
  m_Game : Option (GameInterface EdgeType Meta)

/-- What a run of the constructor leaves: the object, the exception scheduled with
`Nan::ThrowError` if any, and the calls made into the engine, in order. -/
structure Constructed (EdgeType Meta : Type) where
  self : Loot EdgeType Meta
  thrown : Option JsError
  calls : List EngineCall

/-- The `try` block of the constructor `Loot::Loot`: the calls made into the engine and
the way the block ends. -/
def Loot.tryBlock {EdgeType Meta : Type} (engine : Engine EdgeType Meta)
    (gameId gamePath gameLocalPath language : String) :
    List EngineCall × Except (Thrown EdgeType) (GameInterface EdgeType Meta) :=
  match engine.InitialiseLocale language with
  | .error t => ([.InitialiseLocale language], .error t)
  | .ok () =>
    match convertGameId gameId with
    | .error t => ([.InitialiseLocale language], .error t)
    | .ok game =>
      ([.InitialiseLocale language, .CreateGameHandle game gamePath gameLocalPath],
        engine.CreateGameHandle game gamePath gameLocalPath)

/-- The constructor `Loot::Loot`, with its two handlers. -/
def Loot.new {EdgeType Meta : Type} (engine : Engine EdgeType Meta)
    (gameId gamePath gameLocalPath language : String) : Constructed EdgeType Meta :=
  match Loot.tryBlock engine gameId gamePath gameLocalPath language with
  | (calls, .ok handle) =>
    { self := { m_Language := language, m_Game := some handle }, thrown := none,
      calls := calls }
  | (calls, .error t) =>
    match t.what with
    | some what =>
      { self := { m_Language := language, m_Game := none },
        thrown := some (JsError.plain what), calls := calls }
    | none =>
      { self := { m_Language := language, m_Game := none },
        thrown := some (JsError.plain "unknown exception"), calls := calls }

/-- How an operation of the session tells the host of a failure. -/
inductive Report where
  /-- `isolate->ThrowException(e)`. -/
  | v8Exception (e : JsError)
  /-- `NBIND_ERR(message)`. -/
  | nbindError (message : String)
  deriving DecidableEq, Repr

/-- The ways a call of an operation of the session ends. -/
inductive Ended (EdgeType α : Type) where
  /-- The operation returns `value`, having reported `report` if it is not `none`. -/
  | returned (value : α) (report : Option Report)
  /-- No handler of the operation matches: the thrown object leaves the operation. -/
  | propagated (t : Thrown EdgeType)
  /-- The operation runs into undefined behaviour. -/
  | undefined
  deriving DecidableEq, Repr

/-- The handler `catch (const std::exception &e) { NBIND_ERR(e.what()); }` followed by the
return of `fallback`; any other thrown object passes.  `NBIND_ERR` is a macro of nbind,
outside the sources: it records the message, which the host receives as an error. -/
def catchException {EdgeType α : Type} (t : Thrown EdgeType) (fallback : α) :
    Ended EdgeType α :=
  match t.what with
  | some what => .returned fallback (some (.nbindError what))
  | none => .propagated t

/-- `Loot::updateMasterlist`. -/
def Loot.updateMasterlist {EdgeType Meta : Type} (self : Loot EdgeType Meta)
    (masterlistPath remoteUrl remoteBranch : String) : Ended EdgeType Bool :=
  match self.m_Game with
  | none => .undefined
  | some game =>
    match game.UpdateMasterlist masterlistPath remoteUrl remoteBranch with
    | .ok b => .returned b none
    | .error t => catchException t false

/-- `Loot::loadLists`. -/
def Loot.loadLists {EdgeType Meta : Type} (self : Loot EdgeType Meta)
    (masterlistPath userlistPath : String) : Ended EdgeType Unit :=
  match self.m_Game with
  | none => .undefined
  | some game =>
    match game.LoadLists masterlistPath userlistPath with
    | .ok () => .returned () none
    | .error t => catchException t ()

/-- `Loot::loadPlugins`. -/
def Loot.loadPlugins {EdgeType Meta : Type} (self : Loot EdgeType Meta)
    (plugins : List String) (loadHeadersOnly : Bool) : Ended EdgeType Unit :=
  match self.m_Game with
  | none => .undefined
  | some game =>
    match game.LoadPlugins plugins loadHeadersOnly with
    | .ok () => .returned () none
    | .error t => catchException t ()

/-- `Loot::getPluginMetadata`; `default` is `loot::PluginMetadata()`. -/
def Loot.getPluginMetadata {EdgeType Meta : Type} [Inhabited Meta]
    (self : Loot EdgeType Meta) (plugin : String) : Ended EdgeType (PluginMetadata Meta) :=
  match self.m_Game with
  | none => .undefined
  | some game =>
    match game.GetPluginMetadata plugin true true with
    | .ok none =>
      .returned { m_Wrapped := default, m_Language := self.m_Language }
        (some (.v8Exception (InvalidParameter "getPluginMetaData" "pluginName" (c_str plugin))))
    | .ok (some metaData) =>
      .returned { m_Wrapped := metaData, m_Language := self.m_Language } none
    | .error t => catchException t { m_Wrapped := default, m_Language := self.m_Language }

/-- `Loot::sortPlugins`: the handler of `loot::CyclicInteractionError` comes first. -/
def Loot.sortPlugins {EdgeType Meta : Type} (convertEdgeType : EdgeType → String)
    (indeterminate : EdgeType) (self : Loot EdgeType Meta) (input : List String) :
    Ended EdgeType (List String) :=
  match self.m_Game with
  | none => .undefined
  | some game =>
    match game.SortPlugins input with
    | .ok sorted => .returned sorted none
    | .error (.cyclic e) =>
      .returned []
        (some (.v8Exception (CyclicalInteractionException convertEdgeType indeterminate e)))
    | .error t => catchException t []

/-- `Loot::getLoadOrder`. -/
def Loot.getLoadOrder {EdgeType Meta : Type} (self : Loot EdgeType Meta) :
    Ended EdgeType (List String) :=
  match self.m_Game with
  | none => .undefined
  | some game =>
    match game.GetLoadOrder () with
    | .ok order => .returned order none
    | .error t => catchException t []

/-- Modelled from the spec: `std::unordered_set<loot::Group>::insert` with the equality of
`loot::Group`, which is declared in the engine and not in the sources and goes by the name
(section 3).  Nothing changes when the set holds a group of the name of `ele`.  The set is
kept as the list of its members in the order of their insertion; the order in which C++
enumerates them is not fixed. -/
def unordered_set_insert (result : List Group) (ele : Group) : List Group :=
  if result.any (fun g => g.name == ele.name) then result else result ++ [ele]

/-- The loop of `Loot::setUserGroups`: the set `result` once every group is inserted. -/
def userGroupSet (groups : List Group) : List Group :=
  groups.foldl unordered_set_insert []

/-- `Loot::setUserGroups`, with the calls made into the engine. -/
def Loot.setUserGroups {EdgeType Meta : Type} (self : Loot EdgeType Meta)
    (groups : List Group) : List EngineCall × Ended EdgeType Unit :=
  match self.m_Game with
  | none => ([], .undefined)
  | some game =>
    let result := userGroupSet groups
    match game.SetUserGroups result with
    | .ok () => ([.SetUserGroups result], .returned () none)
    | .error t => ([.SetUserGroups result], catchException t ())

/-! ## The single-in-flight guard

The file declares `BusyException` and gives every worker an internal callback, but the
code that queues the workers is not part of it.  That code is modelled from the
specification (sections 4.4 and 5); the workers it queues are the ones defined above. -/

/-- Modelled from the spec: a task that was queued and has not completed, which the
sources have no record of.  `executed` tells whether a worker thread has run its
`Execute`; the state its internal callback works on is the busy flag. -/
structure Task (EdgeType ResT : Type) where
  worker : Worker EdgeType ResT Bool
  executed : Bool

/-- Modelled from the spec: the session as the guard sees it, which is missing from the
sources.  `host.state` is the busy flag, `inFlight` the tasks queued and not completed,
oldest first, and `engineRuns` counts the engine operations started. -/
structure Session (EdgeType ResT V : Type) where
  host : Host Bool V
  inFlight : List (Task EdgeType ResT)
  engineRuns : Nat

/-- Modelled from the spec: a new session, missing from the sources: not busy, nothing
queued. -/
def Session.init {EdgeType ResT V : Type} : Session EdgeType ResT V :=
  { host := { state := false, trace := [] }, inFlight := [], engineRuns := 0 }

/-- Modelled from the spec: what can happen to a session (section 5), the scheduling
being outside the sources: the caller asks for an operation, a worker thread runs a
queued task, the caller's thread completes a task that was run. -/
inductive Action (EdgeType ResT : Type) where
  | submit (op : Unit → Except (Thrown EdgeType) ResT)
  | execute
  | complete

/-- Modelled from the spec: the entry point of an asynchronous operation, missing from the
sources.  A busy session refuses with `BusyException` and is left as it was; otherwise the
flag is raised and a worker is queued whose internal callback lowers it. -/
def Session.submit {EdgeType ResT V : Type} [Inhabited ResT]
    (s : Session EdgeType ResT V) (op : Unit → Except (Thrown EdgeType) ResT) :
    Session EdgeType ResT V × Option (Thrown EdgeType) :=
  if s.host.state then (s, some .BusyException)
  else
    ({ host := { state := true, trace := s.host.trace },
       inFlight := s.inFlight ++ [{ worker := Worker.new op (fun _ => false),
                                    executed := false }],
       engineRuns := s.engineRuns }, none)

/-- Modelled from the spec: the work queue, missing from the sources.  A worker thread
takes the oldest task that was not run and runs its `Execute`; `none` when there is no
such task. -/
def executeFirst {EdgeType ResT : Type} :
    List (Task EdgeType ResT) → Option (List (Task EdgeType ResT))
  | [] => none
  | t :: ts =>
    if t.executed then (executeFirst ts).map (fun ts => t :: ts)
    else some ({ worker := t.worker.Execute, executed := true } :: ts)

/-- Modelled from the spec: the delivery of results, missing from the sources.  The
caller's thread takes the oldest task that was run and runs its `WorkComplete`; `none`
when there is no such task. -/
def completeFirst {EdgeType ResT V : Type} (toV8 : ResT → V) (h : Host Bool V) :
    List (Task EdgeType ResT) → Option (Host Bool V × List (Task EdgeType ResT))
  | [] => none
  | t :: ts =>
    if t.executed then some (t.worker.WorkComplete toV8 h, ts)
    else (completeFirst toV8 h ts).map (fun r => (r.1, t :: r.2))

/-- Modelled from the spec: one action on a session, the scheduling being outside the
sources: the session afterwards and what the caller gets thrown. -/
def Session.step {EdgeType ResT V : Type} [Inhabited ResT] (toV8 : ResT → V)
    (s : Session EdgeType ResT V) :
    Action EdgeType ResT → Session EdgeType ResT V × Option (Thrown EdgeType)
  | .submit op => s.submit op
  | .execute =>
    match executeFirst s.inFlight with
    | none => (s, none)
    | some ts => ({ host := s.host, inFlight := ts, engineRuns := s.engineRuns + 1 }, none)
  | .complete =>
    match completeFirst toV8 s.host s.inFlight with
    | none => (s, none)
    | some (h, ts) => ({ host := h, inFlight := ts, engineRuns := s.engineRuns }, none)

/-- Modelled from the spec: the session after a sequence of actions, in any
interleaving of submissions, executions and completions. -/
def Session.run {EdgeType ResT V : Type} [Inhabited ResT] (toV8 : ResT → V)
    (s : Session EdgeType ResT V) (actions : List (Action EdgeType ResT)) :
    Session EdgeType ResT V :=
  actions.foldl (fun s a => (s.step toV8 a).1) s

/-! ## The claims in the words of the specification -/

/-- The de-duplicated list of the specification: of the groups of one name only the first
is kept. -/
def dedupGroups : List Group → List Group
  | [] => []
  | g :: gs => g :: (dedupGroups gs).filter (fun h => h.name != g.name)

/-- The calls of the completion callback in a trace, with their arguments, in order. -/
def completions {V : Type} : List (Event V) → List (List (JsArg V))
  | [] => []
  | .bookkeeping :: es => completions es
  | .completion argv :: es => argv :: completions es

/-! ## Concrete engines, used to evaluate the definitions -/

/-- A text with a NUL byte in the middle: `a`, NUL, `b`. -/
def textWithNUL : String := ⟨[Char.ofNat 97, NUL, Char.ofNat 98]⟩

/-- The same as a `std::string`: the bytes `a`, NUL, `b`. -/
def bytesWithNUL : StdString := [0x61, 0x00, 0x62]

/-- A `std::string` without a NUL byte that is not UTF-8: `f` and the byte `FF`. -/
def bytesNotUtf8 : StdString := [0x66, 0xFF]

/-- A game handle every method of which returns: no metadata for any plugin, the plugins
in the order given, an empty load order. -/
def quietGame : GameInterface String Unit :=
  { UpdateMasterlist := fun _ _ _ => .ok true,
    LoadLists := fun _ _ => .ok (),
    LoadPlugins := fun _ _ => .ok (),
    GetPluginMetadata := fun _ _ _ => .ok none,
    SortPlugins := fun input => .ok input,
    GetLoadOrder := fun _ => .ok [],
    SetUserGroups := fun _ => .ok () }

/-- A game handle every method of which throws an object that is not a `std::exception`. -/
def faultyGame : GameInterface String Unit :=
  { UpdateMasterlist := fun _ _ _ => .error .unknown,
    LoadLists := fun _ _ => .error .unknown,
    LoadPlugins := fun _ _ => .error .unknown,
    GetPluginMetadata := fun _ _ _ => .error .unknown,
    SortPlugins := fun _ => .error .unknown,
    GetLoadOrder := fun _ => .error .unknown,
    SetUserGroups := fun _ => .error .unknown }

/-- An engine that accepts every locale and every path. -/
def quietEngine : Engine String Unit :=
  { InitialiseLocale := fun _ => .ok (),
    CreateGameHandle := fun _ _ _ => .ok quietGame }

/-- An engine whose `InitialiseLocale` throws a `std::runtime_error`. -/
def localeRefusingEngine : Engine String Unit :=
  { InitialiseLocale := fun _ => .error (.exception "locale not available"),
    CreateGameHandle := fun _ _ _ => .ok quietGame }

/-- An engine whose `CreateGameHandle` throws an object that is not a `std::exception`. -/
def faultyEngine : Engine String Unit :=
  { InitialiseLocale := fun _ => .ok (),
    CreateGameHandle := fun _ _ _ => .error .unknown }

/-- A game handle that has metadata for every plugin. -/
def knowingGame : GameInterface String Unit :=
  { quietGame with GetPluginMetadata := fun _ _ _ => .ok (some ()) }

/-! ## Theorems -/

theorem lookup_gameMap (s : String) :
    s ∈ knownGameIds ∨ gameMap.lookup s = none := by
  by_cases h1 : s = "oblivion"
  · left; simp [knownGameIds, h1]
  by_cases h2 : s = "skyrim"
  · left; simp [knownGameIds, h2]
  by_cases h3 : s = "skyrimse"
  · left; simp [knownGameIds, h3]
  by_cases h4 : s = "skyrimvr"
  · left; simp [knownGameIds, h4]
  by_cases h5 : s = "fallout3"
  · left; simp [knownGameIds, h5]
  by_cases h6 : s = "falloutnv"
  · left; simp [knownGameIds, h6]
  by_cases h7 : s = "fallout4"
  · left; simp [knownGameIds, h7]
  by_cases h8 : s = "fallout4vr"
  · left; simp [knownGameIds, h8]
  right
  have e1 : (s == "oblivion") = false := by simpa using h1
  have e2 : (s == "skyrim") = false := by simpa using h2
  have e3 : (s == "skyrimse") = false := by simpa using h3
  have e4 : (s == "skyrimvr") = false := by simpa using h4
  have e5 : (s == "fallout3") = false := by simpa using h5
  have e6 : (s == "falloutnv") = false := by simpa using h6
  have e7 : (s == "fallout4") = false := by simpa using h7
  have e8 : (s == "fallout4vr") = false := by simpa using h8
  simp [gameMap, List.lookup, e1, e2, e3, e4, e5, e6, e7, e8]

/-- C1. `convertGameId` is a lookup in a fixed table: each of the eight known identifiers
gives its game type, the case variant `Skyrim` and the empty string are refused, every
string outside the eight is refused with `UnsupportedGame`, and the lookup succeeds if and
only if the identifier is one of the eight. -/
theorem convertGameId_lookup (EdgeType : Type) :
    (convertGameId "oblivion" : Except (Thrown EdgeType) GameType) = .ok .tes4 ∧
    (convertGameId "skyrim" : Except (Thrown EdgeType) GameType) = .ok .tes5 ∧
    (convertGameId "skyrimse" : Except (Thrown EdgeType) GameType) = .ok .tes5se ∧
    (convertGameId "skyrimvr" : Except (Thrown EdgeType) GameType) = .ok .tes5vr ∧
    (convertGameId "fallout3" : Except (Thrown EdgeType) GameType) = .ok .fo3 ∧
    (convertGameId "falloutnv" : Except (Thrown EdgeType) GameType) = .ok .fonv ∧
    (convertGameId "fallout4" : Except (Thrown EdgeType) GameType) = .ok .fo4 ∧
    (convertGameId "fallout4vr" : Except (Thrown EdgeType) GameType) = .ok .fo4vr ∧
    (convertGameId "Skyrim" : Except (Thrown EdgeType) GameType) = .error .UnsupportedGame ∧
    (convertGameId "" : Except (Thrown EdgeType) GameType) = .error .UnsupportedGame ∧
    (∀ gameId : String, gameId ∈ knownGameIds ∨
      (convertGameId gameId : Except (Thrown EdgeType) GameType) = .error .UnsupportedGame) ∧
    (∀ gameId : String,
      (∃ g, (convertGameId gameId : Except (Thrown EdgeType) GameType) = .ok g) ↔
        gameId ∈ knownGameIds) := by
  refine ⟨rfl, rfl, rfl, rfl, rfl, rfl, rfl, rfl, rfl, rfl, ?_, ?_⟩
  · intro s
    rcases lookup_gameMap s with h | h
    · exact Or.inl h
    · right; simp [convertGameId, h]
  · intro s
    constructor
    · rintro ⟨g, hg⟩
      rcases lookup_gameMap s with h | h
      · exact h
      · simp [convertGameId, h] at hg
    · intro h
      simp only [knownGameIds, List.mem_cons, List.mem_singleton, List.not_mem_nil, or_false] at h
      rcases h with h | h | h | h | h | h | h | h <;> subst h <;> exact ⟨_, rfl⟩

theorem convertGameId_unknown (EdgeType : Type) {gameId : String}
    (h : gameId ∉ knownGameIds) :
    (convertGameId gameId : Except (Thrown EdgeType) GameType) = .error .UnsupportedGame := by
  rcases lookup_gameMap gameId with hk | hk
  · exact absurd hk h
  · simp [convertGameId, hk]

theorem convertGameId_known (EdgeType : Type) {gameId : String}
    (h : gameId ∈ knownGameIds) :
    ∃ g, (convertGameId gameId : Except (Thrown EdgeType) GameType) = .ok g := by
  simp only [knownGameIds, List.mem_cons, List.mem_singleton, List.not_mem_nil, or_false] at h
  rcases h with h | h | h | h | h | h | h | h <;> subst h <;> exact ⟨_, rfl⟩

/-- C2, counterexample.  The identifier `morrowind` is unknown, yet with an engine whose
`InitialiseLocale` throws, the constructor reports the locale error and not the error
`game not supported`: the locale is initialised before the identifier is looked at. -/
theorem Loot_new_unknown_game_locale_error :
    "morrowind" ∉ knownGameIds ∧
    (Loot.new localeRefusingEngine "morrowind" "C:/game" "C:/local" "xx").thrown
      = some (JsError.plain "locale not available") ∧
    (Loot.new localeRefusingEngine "morrowind" "C:/game" "C:/local" "xx").thrown
      ≠ some (JsError.plain "game not supported") := by
  refine ⟨by decide, rfl, by decide⟩

/-- C2, amended.  For a known identifier, when the engine accepts the locale and the
paths, the handle is created and nothing is thrown.  For an unknown identifier, whatever
the locale, the paths and the engine do, no handle is created, `CreateGameHandle` is not
called and an error is thrown: `game not supported` when `InitialiseLocale` returns, and
otherwise the error raised by `InitialiseLocale`, which is its message when it is a
`std::exception` and `unknown exception` when it is anything else. -/
theorem Loot_new_amended {EdgeType Meta : Type} (engine : Engine EdgeType Meta)
    (gameId gamePath gameLocalPath language : String) :
    (gameId ∈ knownGameIds →
      ∃ game, (convertGameId gameId : Except (Thrown EdgeType) GameType) = .ok game ∧
        (engine.InitialiseLocale language = .ok () →
          ∀ handle, engine.CreateGameHandle game gamePath gameLocalPath = .ok handle →
            (Loot.new engine gameId gamePath gameLocalPath language).self.m_Game = some handle ∧
            (Loot.new engine gameId gamePath gameLocalPath language).thrown = none ∧
            (Loot.new engine gameId gamePath gameLocalPath language).calls =
              [.InitialiseLocale language, .CreateGameHandle game gamePath gameLocalPath])) ∧
    (gameId ∉ knownGameIds →
      (Loot.new engine gameId gamePath gameLocalPath language).self.m_Game = none ∧
      (Loot.new engine gameId gamePath gameLocalPath language).calls =
        [.InitialiseLocale language] ∧
      (∀ c ∈ (Loot.new engine gameId gamePath gameLocalPath language).calls,
        c.isCreateGameHandle = false) ∧
      (∃ e, (Loot.new engine gameId gamePath gameLocalPath language).thrown = some e) ∧
      (engine.InitialiseLocale language = .ok () →
        (Loot.new engine gameId gamePath gameLocalPath language).thrown =
          some (JsError.plain "game not supported")) ∧
      (∀ t what, engine.InitialiseLocale language = .error t → t.what = some what →
        (Loot.new engine gameId gamePath gameLocalPath language).thrown =
          some (JsError.plain what)) ∧
      (∀ t, engine.InitialiseLocale language = .error t → t.what = none →
        (Loot.new engine gameId gamePath gameLocalPath language).thrown =
          some (JsError.plain "unknown exception"))) := by
  constructor
  · intro hk
    obtain ⟨game, hgame⟩ := convertGameId_known EdgeType hk
    refine ⟨game, hgame, ?_⟩
    intro hloc handle hcreate
    simp [Loot.new, Loot.tryBlock, hloc, hgame, hcreate]
  · intro hk
    have hconv := convertGameId_unknown EdgeType hk
    cases hloc : engine.InitialiseLocale language with
    | error t =>
      cases hw : t.what with
      | none =>
        simp [Loot.new, Loot.tryBlock, hloc, hw, EngineCall.isCreateGameHandle]
        intro t1 w e hw1
        subst e
        rw [hw] at hw1
        cases hw1
      | some m =>
        simp [Loot.new, Loot.tryBlock, hloc, hw, EngineCall.isCreateGameHandle]
        intro t1 w e hw1
        subst e
        rw [hw] at hw1
        cases hw1
        rfl
    | ok u =>
      cases u
      simp [Loot.new, Loot.tryBlock, hloc, hconv, Thrown.what,
        EngineCall.isCreateGameHandle]

/-- C2, the amended statement at `skyrimse` and at `morrowind` with an engine that accepts
everything, and at `morrowind` with an engine that refuses the locale. -/
theorem Loot_new_amended_witness :
    (∃ game, (convertGameId "skyrimse" : Except (Thrown String) GameType) = .ok game ∧
      (Loot.new quietEngine "skyrimse" "C:/game" "C:/local" "en").thrown = none ∧
      (Loot.new quietEngine "skyrimse" "C:/game" "C:/local" "en").calls =
        [.InitialiseLocale "en", .CreateGameHandle game "C:/game" "C:/local"]) ∧
    (Loot.new quietEngine "morrowind" "C:/game" "C:/local" "en").thrown =
      some (JsError.plain "game not supported") ∧
    (Loot.new localeRefusingEngine "morrowind" "C:/game" "C:/local" "en").thrown =
      some (JsError.plain "locale not available") := by
  have h := Loot_new_amended quietEngine "skyrimse" "C:/game" "C:/local" "en"
  have h2 := Loot_new_amended quietEngine "morrowind" "C:/game" "C:/local" "en"
  have h3 := Loot_new_amended localeRefusingEngine "morrowind" "C:/game" "C:/local" "en"
  obtain ⟨game, hg, hrest⟩ := h.1 (by decide)
  obtain ⟨-, h4, h5⟩ := hrest rfl quietGame rfl
  exact ⟨⟨game, hg, h4, h5⟩, (h2.2 (by decide)).2.2.2.2.1 rfl,
    (h3.2 (by decide)).2.2.2.2.2.1 _ "locale not available" rfl rfl⟩

theorem completions_append {V : Type} (xs ys : List (Event V)) :
    completions (xs ++ ys) = completions xs ++ completions ys := by
  induction xs with
  | nil => rfl
  | cons e es ih => cases e <;> simp [completions, ih]

theorem Worker.run_trace {EdgeType ResT σ V : Type} (toV8 : ResT → V)
    (w : Worker EdgeType ResT σ) (hnew : w.errmsg_ = none) (h : Host σ V) :
    (w.run toV8 h).state = w.m_IntCallback h.state ∧
    (w.run toV8 h).trace = h.trace ++ [Event.bookkeeping, Event.completion
      (match w.m_Func () with
       | .ok r => [JsArg.null, JsArg.value (toV8 r)]
       | .error t =>
         match t.what with
         | some what => [JsArg.error what]
         | none => [JsArg.error "unknown exception"])] := by
  cases hf : w.m_Func () with
  | ok r =>
    simp [Worker.run, Worker.Execute, hf, Worker.WorkComplete, hnew, Worker.HandleOKCallback]
  | error t =>
    cases hw : t.what <;>
      simp [Worker.run, Worker.Execute, hf, hw, Worker.WorkComplete, Worker.SetErrorMessage,
        Worker.HandleErrorCallback, AsyncWorker.HandleErrorCallback]

theorem WorkerVoid.runVoid_trace {EdgeType σ V : Type}
    (w : WorkerVoid EdgeType σ) (hnew : w.errmsg_ = none) (h : Host σ V) :
    (w.run h).state = w.m_IntCallback h.state ∧
    (w.run h).trace = h.trace ++ [Event.bookkeeping, Event.completion
      (match w.m_Func () with
       | .ok _ => [JsArg.null]
       | .error t =>
         match t.what with
         | some what => [JsArg.error what]
         | none => [JsArg.error "unknown exception"])] := by
  cases hf : w.m_Func () with
  | ok r =>
    simp [WorkerVoid.run, WorkerVoid.Execute, hf, WorkerVoid.WorkComplete, hnew,
      WorkerVoid.HandleOKCallback]
  | error t =>
    cases hw : t.what <;>
      simp [WorkerVoid.run, WorkerVoid.Execute, hf, hw, WorkerVoid.WorkComplete,
        WorkerVoid.SetErrorMessage, WorkerVoid.HandleErrorCallback,
        AsyncWorker.HandleErrorCallback]

/-- C3. A task of either kind calls the completion callback exactly once.  When the work
returns, the arguments are null and the converted result (null alone for `Worker<void>`);
when it throws a `std::exception`, the single argument is an error with the message of the
exception; when it throws anything else, the single argument is the error
`unknown exception`. -/
theorem worker_delivers_exactly_one_outcome {EdgeType ResT σ V : Type} [Inhabited ResT]
    (toV8 : ResT → V) (func : Unit → Except (Thrown EdgeType) ResT)
    (work : Unit → Except (Thrown EdgeType) Unit) (internalCallback : σ → σ)
    (h : Host σ V) :
    (∀ r, func () = .ok r →
      completions ((Worker.new func internalCallback).run toV8 h).trace =
        completions h.trace ++ [[JsArg.null, JsArg.value (toV8 r)]]) ∧
    (∀ t what, func () = .error t → t.what = some what →
      completions ((Worker.new func internalCallback).run toV8 h).trace =
        completions h.trace ++ [[JsArg.error what]]) ∧
    (∀ t, func () = .error t → t.what = none →
      completions ((Worker.new func internalCallback).run toV8 h).trace =
        completions h.trace ++ [[JsArg.error "unknown exception"]]) ∧
    (work () = .ok () →
      completions ((WorkerVoid.new work internalCallback).run h).trace =
        completions h.trace ++ [[JsArg.null]]) ∧
    (∀ t what, work () = .error t → t.what = some what →
      completions ((WorkerVoid.new work internalCallback).run h).trace =
        completions h.trace ++ [[JsArg.error what]]) ∧
    (∀ t, work () = .error t → t.what = none →
      completions ((WorkerVoid.new work internalCallback).run h).trace =
        completions h.trace ++ [[JsArg.error "unknown exception"]]) := by
  have h1 := (Worker.run_trace toV8 (Worker.new func internalCallback) rfl h).2
  have h2 := (WorkerVoid.runVoid_trace (WorkerVoid.new work internalCallback) rfl h).2
  simp only [Worker.new] at h1
  simp only [WorkerVoid.new] at h2
  refine ⟨?_, ?_, ?_, ?_, ?_, ?_⟩
  · intro r hr
    simp only [Worker.new, h1, hr, completions_append, completions]
  · intro t what ht hw
    simp only [Worker.new, h1, ht, hw, completions_append, completions]
  · intro t ht hw
    simp only [Worker.new, h1, ht, hw, completions_append, completions]
  · intro hr
    simp only [WorkerVoid.new, h2, hr, completions_append, completions]
  · intro t what ht hw
    simp only [WorkerVoid.new, h2, ht, hw, completions_append, completions]
  · intro t ht hw
    simp only [WorkerVoid.new, h2, ht, hw, completions_append, completions]

/-- C4. On the success path and on the failure path of both kinds of worker, the internal
callback is called once, on the state it is given, and the completion callback is called
right after it: a task adds `[bookkeeping, completion]` to the trace. -/
theorem worker_bookkeeping_before_completion {EdgeType ResT σ V : Type}
    (toV8 : ResT → V) (w : Worker EdgeType ResT σ) (v : WorkerVoid EdgeType σ)
    (errmsg_ : String) (h : Host σ V) :
    (w.HandleOKCallback toV8 h).trace =
      h.trace ++ [Event.bookkeeping, Event.completion [JsArg.null, JsArg.value (toV8 w.m_Result)]] ∧
    (w.HandleOKCallback toV8 h).state = w.m_IntCallback h.state ∧
    (w.HandleErrorCallback errmsg_ h).trace =
      h.trace ++ [Event.bookkeeping, Event.completion [JsArg.error errmsg_]] ∧
    (w.HandleErrorCallback errmsg_ h).state = w.m_IntCallback h.state ∧
    (v.HandleOKCallback h).trace = h.trace ++ [Event.bookkeeping, Event.completion [JsArg.null]] ∧
    (v.HandleOKCallback h).state = v.m_IntCallback h.state ∧
    (v.HandleErrorCallback errmsg_ h).trace =
      h.trace ++ [Event.bookkeeping, Event.completion [JsArg.error errmsg_]] ∧
    (v.HandleErrorCallback errmsg_ h).state = v.m_IntCallback h.state ∧
    (∃ argv, (w.run toV8 h).trace =
      h.trace ++ [Event.bookkeeping, Event.completion argv]) ∧
    (∃ argv, (v.run h).trace =
      h.trace ++ [Event.bookkeeping, Event.completion argv]) := by
  refine ⟨?_, rfl, ?_, rfl, ?_, rfl, ?_, rfl, ?_, ?_⟩
  · simp [Worker.HandleOKCallback]
  · simp [Worker.HandleErrorCallback, AsyncWorker.HandleErrorCallback]
  · simp [WorkerVoid.HandleOKCallback]
  · simp [WorkerVoid.HandleErrorCallback, AsyncWorker.HandleErrorCallback]
  · cases he : w.Execute.errmsg_ with
    | none =>
      exact ⟨[JsArg.null, JsArg.value (toV8 w.Execute.m_Result)],
        by simp [Worker.run, Worker.WorkComplete, he, Worker.HandleOKCallback]⟩
    | some m =>
      exact ⟨[JsArg.error m], by simp [Worker.run, Worker.WorkComplete, he, Worker.HandleErrorCallback,
        AsyncWorker.HandleErrorCallback]⟩
  · cases he : v.Execute.errmsg_ with
    | none =>
      exact ⟨[JsArg.null], by simp [WorkerVoid.run, WorkerVoid.WorkComplete, he, WorkerVoid.HandleOKCallback]⟩
    | some m =>
      exact ⟨[JsArg.error m], by simp [WorkerVoid.run, WorkerVoid.WorkComplete, he,
        WorkerVoid.HandleErrorCallback, AsyncWorker.HandleErrorCallback]⟩

/-- C3 at three tasks: one that returns a list, one that throws a `std::exception`, one
that throws something else. -/
theorem worker_delivers_exactly_one_outcome_witness :
    completions ((Worker.new
        (fun _ => (.ok [utf8 "a.esp"] : Except (Thrown String) (List StdString)))
        (fun _ => false)).run ToV8 ({ state := true, trace := [] } : Host Bool (List String))).trace
      = [[JsArg.null, JsArg.value ["a.esp"]]] ∧
    completions ((Worker.new
        (fun _ => (.error (.exception "sorting failed") : Except (Thrown String) (List StdString)))
        (fun _ => false)).run ToV8 ({ state := true, trace := [] } : Host Bool (List String))).trace
      = [[JsArg.error "sorting failed"]] ∧
    completions ((WorkerVoid.new (fun _ => (.error .unknown : Except (Thrown String) Unit))
        (fun _ => false)).run ({ state := true, trace := [] } : Host Bool (List String))).trace
      = [[JsArg.error "unknown exception"]] := by
  have e : ToV8 [utf8 "a.esp"] = ["a.esp"] := by decide
  refine ⟨?_, ?_, ?_⟩
  · have h := (worker_delivers_exactly_one_outcome ToV8
      (fun _ => (.ok [utf8 "a.esp"] : Except (Thrown String) (List StdString)))
      (fun _ => .ok ()) (fun _ => false)
      ({ state := true, trace := [] } : Host Bool (List String))).1 [utf8 "a.esp"] rfl
    rw [e] at h
    exact h
  · exact (worker_delivers_exactly_one_outcome ToV8
      (fun _ => .error (.exception "sorting failed")) (fun _ => .ok ()) (fun _ => false)
      { state := true, trace := [] }).2.1 _ "sorting failed" rfl rfl
  · exact (worker_delivers_exactly_one_outcome ToV8
      (fun _ => (.ok [] : Except (Thrown String) (List StdString)))
      (fun _ => .error .unknown) (fun _ => false)
      { state := true, trace := [] }).2.2.2.2.2 _ rfl rfl

theorem c_str_of_no_NUL (s : String) (h : NUL ∉ s.data) : c_str s = s := by
  have : s.data.takeWhile (fun c => c != NUL) = s.data := by
    rw [List.takeWhile_eq_self_iff]
    intro x hx
    have : x ≠ NUL := fun e => h (e ▸ hx)
    simpa using this
  simp [c_str, this]

/-- C5, counterexample.  For the plugin name `a`, NUL, `b`, for which the engine has no
metadata, the property `value` of the error is `a`, not the name supplied. -/
theorem getPluginMetadata_value_cut_at_NUL :
    quietGame.GetPluginMetadata textWithNUL true true = .ok none ∧
    (Loot.getPluginMetadata { m_Language := "en", m_Game := some quietGame } textWithNUL) =
      .returned { m_Wrapped := (), m_Language := "en" }
        (some (.v8Exception
          { message := "Invalid value passed to \"getPluginMetaData\"",
            props := [("arg", .string "pluginName"), ("value", .string "a"),
              ("func", .string "getPluginMetaData")] })) ∧
    textWithNUL ≠ "a" := by
  refine ⟨rfl, by decide, by decide⟩

/-- C5, amended.  In a session with a game handle: when the engine has no metadata for the
plugin, the operation returns with an error scheduled whose message is
`Invalid value passed to "getPluginMetaData"`, whose `func` is `getPluginMetaData`, whose
`arg` is `pluginName` and whose `value` is the name up to its first NUL byte, which is the
whole name when it holds no NUL byte; when the engine has metadata, it is returned with
the language of the session and nothing is reported. -/
theorem getPluginMetadata_amended {EdgeType Meta : Type} [Inhabited Meta]
    (self : Loot EdgeType Meta) (game : GameInterface EdgeType Meta) (plugin : String)
    (hgame : self.m_Game = some game) :
    (game.GetPluginMetadata plugin true true = .ok none →
      ∃ value e, self.getPluginMetadata plugin = .returned value (some (.v8Exception e)) ∧
        e.message = "Invalid value passed to \"getPluginMetaData\"" ∧
        e.prop "func" = some (.string "getPluginMetaData") ∧
        e.prop "arg" = some (.string "pluginName") ∧
        e.prop "value" = some (.string (c_str plugin)) ∧
        (NUL ∉ plugin.data → e.prop "value" = some (.string plugin))) ∧
    (∀ metaData, game.GetPluginMetadata plugin true true = .ok (some metaData) →
      self.getPluginMetadata plugin =
        .returned { m_Wrapped := metaData, m_Language := self.m_Language } none) := by
  constructor
  · intro hnone
    refine ⟨_, _, by simp only [Loot.getPluginMetadata, hgame, hnone]; rfl, ?_, ?_, ?_, ?_, ?_⟩
    · rfl
    · rfl
    · rfl
    · simp [InvalidParameter, JsError.prop, List.lookup]
    · intro h
      simp [InvalidParameter, JsError.prop, List.lookup, c_str_of_no_NUL plugin h]
  · intro md hmd
    simp only [Loot.getPluginMetadata, hgame, hmd]

/-- C5, the amended statement at the plugin `Blank.esp`, once with an engine that has no
metadata for it and once with an engine that has. -/
theorem getPluginMetadata_amended_witness :
    (∃ value e, Loot.getPluginMetadata { m_Language := "en", m_Game := some quietGame }
        "Blank.esp" = .returned value (some (.v8Exception e)) ∧
      e.prop "value" = some (.string "Blank.esp")) ∧
    Loot.getPluginMetadata { m_Language := "en", m_Game := some knowingGame } "Blank.esp"
      = .returned { m_Wrapped := (), m_Language := "en" } none := by
  constructor
  · obtain ⟨value, e, h1, -, -, -, -, h2⟩ :=
      (getPluginMetadata_amended { m_Language := "en", m_Game := some quietGame } quietGame
        "Blank.esp" rfl).1 rfl
    exact ⟨value, e, h1, h2 (by decide)⟩
  · exact (getPluginMetadata_amended { m_Language := "en", m_Game := some knowingGame }
      knowingGame "Blank.esp" rfl).2 () rfl

theorem toNat_scalar (c : Char) :
    c.toNat < 0xD800 ∨ (0xDFFF < c.toNat ∧ c.toNat < 0x110000) := c.valid

theorem utf8Decode_one (b0 : Nat) (rest : List Nat) (h0 : b0 < 0x80) :
    utf8Decode (b0 :: rest) = Char.ofNat b0 :: utf8Decode rest := by
  rw [utf8Decode.eq_def]
  simp only [h0, if_true]

theorem utf8Decode_two (b0 b1 : Nat) (rest : List Nat) (h0 : 0xC2 ≤ b0 ∧ b0 ≤ 0xDF)
    (h1 : isContinuation b1 = true) :
    utf8Decode (b0 :: b1 :: rest) =
      Char.ofNat ((b0 - 0xC0) * 64 + (b1 - 0x80)) :: utf8Decode rest := by
  have a1 : ¬ b0 < 0x80 := by omega
  rw [utf8Decode.eq_def]
  simp only [a1, h0, h1, if_true, if_false, and_self]

theorem utf8Decode_three (b0 b1 b2 : Nat) (rest : List Nat) (h0 : 0xE0 ≤ b0 ∧ b0 ≤ 0xEF)
    (h1 : isSecondByte b0 b1 = true) (h2 : isContinuation b2 = true) :
    utf8Decode (b0 :: b1 :: b2 :: rest) =
      Char.ofNat ((b0 - 0xE0) * 4096 + (b1 - 0x80) * 64 + (b2 - 0x80)) :: utf8Decode rest := by
  have a1 : ¬ b0 < 0x80 := by omega
  have a2 : ¬ (0xC2 ≤ b0 ∧ b0 ≤ 0xDF) := by omega
  rw [utf8Decode.eq_def]
  simp only [a1, a2, h0, h1, h2, if_true, if_false, and_self]

theorem utf8Decode_four (b0 b1 b2 b3 : Nat) (rest : List Nat) (h0 : 0xF0 ≤ b0 ∧ b0 ≤ 0xF4)
    (h1 : isSecondByte b0 b1 = true) (h2 : isContinuation b2 = true)
    (h3 : isContinuation b3 = true) :
    utf8Decode (b0 :: b1 :: b2 :: b3 :: rest) =
      Char.ofNat ((b0 - 0xF0) * 262144 + (b1 - 0x80) * 4096 + (b2 - 0x80) * 64 + (b3 - 0x80))
        :: utf8Decode rest := by
  have a1 : ¬ b0 < 0x80 := by omega
  have a2 : ¬ (0xC2 ≤ b0 ∧ b0 ≤ 0xDF) := by omega
  have a3 : ¬ (0xE0 ≤ b0 ∧ b0 ≤ 0xEF) := by omega
  rw [utf8Decode.eq_def]
  simp only [a1, a2, a3, h0, h1, h2, h3, if_true, if_false, and_self]

theorem utf8Decode_encodeChar (c : Char) (rest : List Nat) :
    utf8Decode (utf8EncodeChar c ++ rest) = c :: utf8Decode rest := by
  have hv := toNat_scalar c
  have hc : ∀ n, n = c.toNat → Char.ofNat n = c := fun n h => by rw [h]; exact Char.ofNat_toNat c
  unfold utf8EncodeChar
  by_cases h1 : c.toNat < 0x80
  · simp only [h1, if_true, List.cons_append, List.nil_append]
    rw [utf8Decode_one _ _ h1, hc _ rfl]
  by_cases h2 : c.toNat < 0x800
  · simp only [h1, h2, if_true, if_false, List.cons_append, List.nil_append]
    rw [utf8Decode_two _ _ _ (by omega) (by simp [isContinuation]; omega), hc _ (by omega)]
  by_cases h3 : c.toNat < 0x10000
  · have a4 : isSecondByte (0xE0 + c.toNat / 4096) (0x80 + c.toNat / 64 % 64) = true := by
      simp only [isSecondByte, secondByteLow, secondByteHigh, Bool.and_eq_true,
        decide_eq_true_eq]
      constructor <;> split_ifs <;> omega
    simp only [h1, h2, h3, if_true, if_false, List.cons_append, List.nil_append]
    rw [utf8Decode_three _ _ _ _ (by omega) a4 (by simp [isContinuation]; omega),
      hc _ (by omega)]
  · have a4 : isSecondByte (0xF0 + c.toNat / 262144) (0x80 + c.toNat / 4096 % 64) = true := by
      simp only [isSecondByte, secondByteLow, secondByteHigh, Bool.and_eq_true,
        decide_eq_true_eq]
      constructor <;> split_ifs <;> omega
    simp only [h1, h2, h3, if_true, if_false, List.cons_append, List.nil_append]
    rw [utf8Decode_four _ _ _ _ _ (by omega) a4 (by simp [isContinuation]; omega)
      (by simp [isContinuation]; omega), hc _ (by omega)]

theorem utf8Decode_encode (cs : List Char) : utf8Decode (utf8Encode cs) = cs := by
  induction cs with
  | nil => rfl
  | cons c cs ih => rw [utf8Encode, utf8Decode_encodeChar, ih]

theorem utf8EncodeChar_lt (c : Char) : ∀ n ∈ utf8EncodeChar c, n < 256 := by
  have hv := toNat_scalar c
  intro n hn
  unfold utf8EncodeChar at hn
  split_ifs at hn <;> simp at hn <;> omega

theorem utf8Encode_lt (cs : List Char) : ∀ n ∈ utf8Encode cs, n < 256 := by
  induction cs with
  | nil => simp [utf8Encode]
  | cons c cs ih =>
    intro n hn
    simp only [utf8Encode, List.mem_append] at hn
    rcases hn with h | h
    · exact utf8EncodeChar_lt c n h
    · exact ih n h

theorem map_val_ofNat (l : List Nat) (h : ∀ n ∈ l, n < 256) :
    (l.map (fun n => (Fin.ofNat n : Byte))).map Fin.val = l := by
  induction l with
  | nil => rfl
  | cons a as ih =>
    have ha := h a (List.mem_cons_self _ _)
    simp only [List.map_cons, List.cons.injEq]
    refine ⟨?_, ih (fun n hn => h n (List.mem_cons_of_mem _ hn))⟩
    simp [Fin.ofNat, Nat.mod_eq_of_lt ha]

theorem Nan.New_utf8 (text : String) : Nan.New (utf8 text) = text := by
  simp only [Nan.New, utf8]
  rw [map_val_ofNat _ (utf8Encode_lt _), utf8Decode_encode]

theorem toNat_ne_zero_of_ne_NUL (c : Char) (h : c ≠ NUL) : c.toNat ≠ 0 := by
  intro h0
  apply h
  have := Char.ofNat_toNat c
  rw [h0] at this
  exact this.symm

theorem utf8EncodeChar_ne_zero (c : Char) (h : c ≠ NUL) :
    ∀ n ∈ utf8EncodeChar c, (Fin.ofNat n : Byte) ≠ 0 := by
  have hv := toNat_scalar c
  have h0 := toNat_ne_zero_of_ne_NUL c h
  intro n hn
  have hlt := utf8EncodeChar_lt c n hn
  have hne : n ≠ 0 := by
    unfold utf8EncodeChar at hn
    split_ifs at hn <;> simp at hn <;> omega
  intro e
  have := congrArg Fin.val e
  simp [Fin.ofNat, Nat.mod_eq_of_lt hlt] at this
  exact hne this

theorem c_str_utf8Encode (cs : List Char) :
    List.takeWhile (fun b : Byte => b != 0) ((utf8Encode cs).map (fun n => Fin.ofNat n)) =
      (utf8Encode (cs.takeWhile (fun c => c != NUL))).map (fun n => Fin.ofNat n) := by
  induction cs with
  | nil => rfl
  | cons c cs ih =>
    by_cases hc : c = NUL
    · subst hc
      rfl
    · have hp : (c != NUL) = true := by simpa using hc
      have ht : List.takeWhile (fun c => c != NUL) (c :: cs) =
          c :: List.takeWhile (fun c => c != NUL) cs := by
        simp [List.takeWhile_cons, hp]
      rw [ht]
      simp only [utf8Encode, List.map_append]
      rw [List.takeWhile_append_of_pos, ih]
      intro b hb
      obtain ⟨n, hn, rfl⟩ := List.mem_map.mp hb
      simpa using utf8EncodeChar_ne_zero c hc n hn

theorem c_str_utf8 (text : String) : StdString.c_str (utf8 text) = utf8 (c_str text) := by
  simp only [StdString.c_str, utf8, c_str]
  exact c_str_utf8Encode text.data

theorem Nan.New_c_str_utf8 (text : String) :
    Nan.New (StdString.c_str (utf8 text)) = c_str text := by
  rw [c_str_utf8, Nan.New_utf8]

theorem no_NUL_of_c_str_eq (text : String) (h : c_str text = text) : NUL ∉ text.data := by
  have h1 : text.data.takeWhile (fun c => c != NUL) = text.data := by
    have := congrArg String.data h
    simpa [c_str] using this
  rw [List.takeWhile_eq_self_iff] at h1
  intro hmem
  simpa using h1 NUL hmem

theorem preserved_iff (bytes : StdString) :
    utf8 (Nan.New (StdString.c_str bytes)) = bytes ↔
      ∃ text : String, bytes = utf8 text ∧ NUL ∉ text.data := by
  constructor
  · intro h
    refine ⟨Nan.New (StdString.c_str bytes), h.symm, ?_⟩
    apply no_NUL_of_c_str_eq
    have := Nan.New_c_str_utf8 (Nan.New (StdString.c_str bytes))
    rw [h] at this
    exact this.symm
  · rintro ⟨text, rfl, hn⟩
    rw [Nan.New_c_str_utf8, c_str_of_no_NUL text hn]

/-- C7. With a game handle whose methods throw an object that is not a `std::exception`,
`sortPlugins`, `loadPlugins`, `getLoadOrder`, `updateMasterlist` and `loadLists` let the
object through to the caller, while the constructor turns the same failure of
`CreateGameHandle` into the error `unknown exception`. -/
theorem facade_lets_unknown_failure_through :
    Loot.sortPlugins id "hardcoded" { m_Language := "en", m_Game := some faultyGame } ["a.esp", "b.esp"]
      = .propagated .unknown ∧
    Loot.loadPlugins { m_Language := "en", m_Game := some faultyGame } ["a.esp", "b.esp"] false
      = .propagated .unknown ∧
    Loot.getLoadOrder { m_Language := "en", m_Game := some faultyGame }
      = .propagated .unknown ∧
    Loot.updateMasterlist { m_Language := "en", m_Game := some faultyGame }
        "masterlist.yaml" "https://example.org/list.git" "master"
      = .propagated .unknown ∧
    Loot.loadLists { m_Language := "en", m_Game := some faultyGame }
        "masterlist.yaml" "userlist.yaml"
      = .propagated .unknown ∧
    (Loot.new faultyEngine "skyrim" "C:/game" "C:/local" "en").thrown
      = some (JsError.plain "unknown exception") := by
  refine ⟨by decide, by decide, by decide, by decide, by decide, by decide⟩

theorem ToV8_loop (value : List StdString) (res : List String) :
    value.foldl (fun res val => res ++ [Nan.New (StdString.c_str val)]) res =
      res ++ value.map (fun val => Nan.New (StdString.c_str val)) := by
  induction value generalizing res with
  | nil => simp
  | cons v vs ih => simp [List.foldl, ih]

theorem ToV8_eq_map (value : List StdString) :
    ToV8 value = value.map (fun val => Nan.New (StdString.c_str val)) := by
  simp [ToV8, ToV8_loop]

/-- C8, counterexample.  The string `a`, NUL, `b` is converted to `a`, and the string `f`,
`FF`, which has no NUL byte and is not UTF-8, is converted to `f`, U+FFFD: neither
element of the array holds the content of the element of the input. -/
theorem ToV8_alters_content :
    ToV8 [utf8 "Skyrim.esm", bytesWithNUL, bytesNotUtf8] =
      ["Skyrim.esm", "a", ⟨[Char.ofNat 0x66, replacementCharacter]⟩] ∧
    utf8 "a" ≠ bytesWithNUL ∧
    utf8 ⟨[Char.ofNat 0x66, replacementCharacter]⟩ ≠ bytesNotUtf8 := by
  refine ⟨by decide, by decide, by decide⟩

/-- C8, amended.  The converted array has the length of the input, and its element `i` is
the V8 string decoded from the bytes of element `i` of the input in front of the first
NUL byte.  For an element that holds valid UTF-8 this is its text up to the first NUL,
which is the whole text when it has no NUL; and the content of an element is preserved in
full exactly when the element is valid UTF-8 without a NUL byte. -/
theorem ToV8_amended (value : List StdString) :
    (ToV8 value).length = value.length ∧
    (∀ (i : Nat) (hi : i < value.length),
      (ToV8 value)[i]? = some (Nan.New (StdString.c_str value[i])) ∧
      (∀ text : String, value[i] = utf8 text → (ToV8 value)[i]? = some (c_str text)) ∧
      (∀ text : String, value[i] = utf8 text → NUL ∉ text.data →
        (ToV8 value)[i]? = some text) ∧
      ((∃ s, (ToV8 value)[i]? = some s ∧ utf8 s = value[i]) ↔
        ∃ text : String, value[i] = utf8 text ∧ NUL ∉ text.data)) := by
  rw [ToV8_eq_map]
  refine ⟨by simp, ?_⟩
  intro i hi
  have h0 : (value.map (fun val => Nan.New (StdString.c_str val)))[i]? =
      some (Nan.New (StdString.c_str value[i])) := by
    simp [List.getElem?_map, List.getElem?_eq_getElem hi]
  refine ⟨h0, ?_, ?_, ?_⟩
  · intro text h
    rw [h0, h, Nan.New_c_str_utf8]
  · intro text h hn
    rw [h0, h, Nan.New_c_str_utf8, c_str_of_no_NUL text hn]
  · rw [← preserved_iff, h0]
    constructor
    · rintro ⟨s, hs, hu⟩
      cases hs
      exact hu
    · intro h
      exact ⟨_, rfl, h⟩

/-- C8, the amended statement at index 1 of a list of two plugin names. -/
theorem ToV8_amended_witness :
    (ToV8 [utf8 "Skyrim.esm", utf8 "Update.esm"])[1]? = some "Update.esm" :=
  ((ToV8_amended [utf8 "Skyrim.esm", utf8 "Update.esm"]).2 1 (by decide)).2.2.1
    "Update.esm" rfl (by decide)

theorem userGroupSet_loop (groups acc : List Group) :
    groups.foldl unordered_set_insert acc =
      acc ++ (dedupGroups groups).filter (fun h => !acc.any (fun g => g.name == h.name)) := by
  induction groups generalizing acc with
  | nil => simp [dedupGroups]
  | cons g gs ih =>
    rw [List.foldl_cons, ih]
    by_cases hg : acc.any (fun a => a.name == g.name) = true
    · have hin : unordered_set_insert acc g = acc := by simp [unordered_set_insert, hg]
      rw [hin]
      congr 1
      simp only [dedupGroups, List.filter_cons, hg, Bool.not_true, Bool.false_eq_true,
        if_false, List.filter_filter]
      apply List.filter_congr
      intro h _
      by_cases hh : h.name = g.name
      · have : acc.any (fun a => a.name == h.name) = true := by rw [hh]; exact hg
        simp [this]
      · simp [hh]
    · have hg' : acc.any (fun a => a.name == g.name) = false := by simpa using hg
      have hin : unordered_set_insert acc g = acc ++ [g] := by
        simp [unordered_set_insert, hg']
      rw [hin]
      simp only [dedupGroups, List.filter_cons, hg', Bool.not_false, if_true,
        List.filter_filter, List.append_assoc, List.singleton_append]
      congr 2
      apply List.filter_congr
      intro h _
      by_cases hh : h.name = g.name
      · simp [hh]
      · have : (g.name == h.name) = false := by simpa using fun e => hh e.symm
        simp [hh, List.any_append, this]

theorem userGroupSet_eq_dedupGroups (groups : List Group) :
    userGroupSet groups = dedupGroups groups := by
  simp [userGroupSet, userGroupSet_loop]

theorem mem_dedupGroups_sub (groups : List Group) :
    ∀ g ∈ dedupGroups groups, g ∈ groups := by
  induction groups with
  | nil => simp [dedupGroups]
  | cons a as ih =>
    intro g hg
    simp only [dedupGroups, List.mem_cons, List.mem_filter] at hg
    rcases hg with rfl | ⟨h, _⟩
    · exact List.mem_cons_self _ _
    · exact List.mem_cons_of_mem _ (ih g h)

theorem dedupGroups_represents (groups : List Group) :
    ∀ g ∈ groups, ∃ h ∈ dedupGroups groups, h.name = g.name := by
  induction groups with
  | nil => simp
  | cons a as ih =>
    intro g hg
    by_cases hname : g.name = a.name
    · exact ⟨a, by simp [dedupGroups], hname.symm⟩
    · rcases List.mem_cons.mp hg with rfl | hmem
      · exact absurd rfl hname
      · obtain ⟨h, hh, hn⟩ := ih g hmem
        refine ⟨h, ?_, hn⟩
        simp only [dedupGroups, List.mem_cons, List.mem_filter]
        right
        exact ⟨hh, by simpa [hn] using hname⟩

theorem dedupGroups_pairwise (groups : List Group) :
    (dedupGroups groups).Pairwise (fun a b => a.name ≠ b.name) := by
  induction groups with
  | nil => simp [dedupGroups]
  | cons a as ih =>
    simp only [dedupGroups, List.pairwise_cons, List.mem_filter]
    constructor
    · intro b hb
      have := hb.2
      intro e
      simp [e] at this
    · exact ih.filter _

theorem dedupGroups_of_pairwise (groups : List Group)
    (h : groups.Pairwise (fun a b => a.name ≠ b.name)) : dedupGroups groups = groups := by
  induction groups with
  | nil => rfl
  | cons a as ih =>
    rw [List.pairwise_cons] at h
    simp only [dedupGroups, ih h.2]
    congr 1
    rw [List.filter_eq_self]
    intro b hb
    simpa using fun e => h.1 b hb e.symm

/-- C9. In a session with a game handle, `setUserGroups` calls `SetUserGroups` once, with
a collection in which no two groups have the same name, whose members all occur in the
input and in which every group of the input is present by its name; the collection is the
de-duplicated input, and the de-duplicated input is passed on as the same collection. -/
theorem setUserGroups_deduplicates {EdgeType Meta : Type} (self : Loot EdgeType Meta)
    (game : GameInterface EdgeType Meta) (groups : List Group)
    (hgame : self.m_Game = some game) :
    (self.setUserGroups groups).1 = [.SetUserGroups (userGroupSet groups)] ∧
    (userGroupSet groups).Pairwise (fun a b => a.name ≠ b.name) ∧
    (∀ g ∈ userGroupSet groups, g ∈ groups) ∧
    (∀ g ∈ groups, ∃ h ∈ userGroupSet groups, h.name = g.name) ∧
    userGroupSet groups = dedupGroups groups ∧
    (self.setUserGroups (dedupGroups groups)).1 = (self.setUserGroups groups).1 := by
  have hcall : ∀ gs, (self.setUserGroups gs).1 = [.SetUserGroups (userGroupSet gs)] := by
    intro gs
    simp only [Loot.setUserGroups, hgame]
    cases game.SetUserGroups (userGroupSet gs) <;> rfl
  refine ⟨hcall groups, ?_, ?_, ?_, userGroupSet_eq_dedupGroups groups, ?_⟩
  · rw [userGroupSet_eq_dedupGroups]; exact dedupGroups_pairwise groups
  · rw [userGroupSet_eq_dedupGroups]; exact mem_dedupGroups_sub groups
  · rw [userGroupSet_eq_dedupGroups]; exact dedupGroups_represents groups
  · rw [hcall, hcall, userGroupSet_eq_dedupGroups, userGroupSet_eq_dedupGroups,
      dedupGroups_of_pairwise _ (dedupGroups_pairwise groups)]

/-- C9 at a list in which the group `default` occurs twice. -/
theorem setUserGroups_deduplicates_witness :
    (Loot.setUserGroups { m_Language := "en", m_Game := some quietGame }
      [{ name := "default", afterGroups := [] }, { name := "late", afterGroups := ["default"] },
       { name := "default", afterGroups := ["early"] }]).1 =
      [.SetUserGroups [{ name := "default", afterGroups := [] },
        { name := "late", afterGroups := ["default"] }]] :=
  (setUserGroups_deduplicates { m_Language := "en", m_Game := some quietGame } quietGame
    [{ name := "default", afterGroups := [] }, { name := "late", afterGroups := ["default"] },
     { name := "default", afterGroups := ["early"] }] rfl).1

theorem Worker.Execute_intCallback {EdgeType ResT σ : Type} (w : Worker EdgeType ResT σ) :
    w.Execute.m_IntCallback = w.m_IntCallback := by
  unfold Worker.Execute
  cases w.m_Func () with
  | ok r => rfl
  | error t =>
    cases hw : t.what with
    | none => simp only [hw]; rfl
    | some m => simp only [hw]; rfl

theorem Worker.WorkComplete_state {EdgeType ResT σ V : Type} (toV8 : ResT → V)
    (w : Worker EdgeType ResT σ) (h : Host σ V) :
    (w.WorkComplete toV8 h).state = w.m_IntCallback h.state := by
  unfold Worker.WorkComplete
  cases w.errmsg_ <;> rfl

/-- The invariant of the guard: nothing is queued and the flag is down, or one task is
queued, the flag is up and the task lowers it on completion. -/
theorem Session.step_invariant {EdgeType ResT V : Type} [Inhabited ResT] (toV8 : ResT → V)
    (s : Session EdgeType ResT V) (a : Action EdgeType ResT)
    (h : (s.inFlight = [] ∧ s.host.state = false) ∨
      ∃ t, s.inFlight = [t] ∧ s.host.state = true ∧ t.worker.m_IntCallback = fun _ => false) :
    ((s.step toV8 a).1.inFlight = [] ∧ (s.step toV8 a).1.host.state = false) ∨
      ∃ t, (s.step toV8 a).1.inFlight = [t] ∧ (s.step toV8 a).1.host.state = true ∧
        t.worker.m_IntCallback = fun _ => false := by
  rcases h with ⟨hq, hf⟩ | ⟨t, hq, hf, hcb⟩
  · cases a with
    | submit op =>
      right
      exact ⟨{ worker := Worker.new op (fun _ => false), executed := false }, by
        simp [Session.step, Session.submit, hf, hq], by
        simp [Session.step, Session.submit, hf], rfl⟩
    | execute => left; simp [Session.step, hq, executeFirst, hf]
    | complete => left; simp [Session.step, hq, completeFirst, hf]
  · cases a with
    | submit op =>
      right
      exact ⟨t, by simp [Session.step, Session.submit, hf, hq], by
        simp [Session.step, Session.submit, hf], hcb⟩
    | execute =>
      right
      by_cases he : t.executed = true
      · exact ⟨t, by simp [Session.step, hq, executeFirst, he], by
          simp [Session.step, hq, executeFirst, he, hf], hcb⟩
      · exact ⟨{ worker := t.worker.Execute, executed := true }, by
          simp [Session.step, hq, executeFirst, he], by
          simp [Session.step, hq, executeFirst, he, hf], by
          simp [Worker.Execute_intCallback, hcb]⟩
    | complete =>
      by_cases he : t.executed = true
      · left
        simp [Session.step, hq, completeFirst, he, Worker.WorkComplete_state, hcb]
      · right
        exact ⟨t, by simp [Session.step, hq, completeFirst, he], by
          simp [Session.step, hq, completeFirst, he, hf], hcb⟩

theorem Session.run_invariant {EdgeType ResT V : Type} [Inhabited ResT] (toV8 : ResT → V)
    (actions : List (Action EdgeType ResT)) (s : Session EdgeType ResT V)
    (h : (s.inFlight = [] ∧ s.host.state = false) ∨
      ∃ t, s.inFlight = [t] ∧ s.host.state = true ∧ t.worker.m_IntCallback = fun _ => false) :
    ((s.run toV8 actions).inFlight = [] ∧ (s.run toV8 actions).host.state = false) ∨
      ∃ t, (s.run toV8 actions).inFlight = [t] ∧ (s.run toV8 actions).host.state = true ∧
        t.worker.m_IntCallback = fun _ => false := by
  induction actions generalizing s with
  | nil => exact h
  | cons a as ih =>
    have := ih (s.step toV8 a).1 (Session.step_invariant toV8 s a h)
    simpa [Session.run] using this

/-- C10. After any sequence of submissions, executions and completions on a new session,
at most one task is in flight; and when one is, a further submission throws
`BusyException`, of message `Loot connection is busy`, and leaves the session as it was:
the task in flight, the count of engine operations started and the trace are unchanged. -/
theorem single_in_flight_guard {EdgeType ResT V : Type} [Inhabited ResT] (toV8 : ResT → V)
    (actions : List (Action EdgeType ResT)) (op : Unit → Except (Thrown EdgeType) ResT) :
    ((Session.init : Session EdgeType ResT V).run toV8 actions).inFlight.length ≤ 1 ∧
    (((Session.init : Session EdgeType ResT V).run toV8 actions).inFlight = [] ∨
      ((Session.init : Session EdgeType ResT V).run toV8 actions).step toV8 (.submit op) =
        ((Session.init : Session EdgeType ResT V).run toV8 actions, some .BusyException)) ∧
    (Thrown.BusyException : Thrown EdgeType).what = some "Loot connection is busy" := by
  have h := Session.run_invariant toV8 actions (Session.init : Session EdgeType ResT V)
    (Or.inl ⟨rfl, rfl⟩)
  refine ⟨?_, ?_, rfl⟩
  · rcases h with ⟨hq, _⟩ | ⟨t, hq, _, _⟩ <;> simp [hq]
  · rcases h with ⟨hq, _⟩ | ⟨t, hq, hf, _⟩
    · exact Or.inl hq
    · right
      simp [Session.step, Session.submit, hf]

/-- C10 at a session with one task in flight: a second submission is refused and the
session is unchanged. -/
theorem single_in_flight_guard_witness :
    ((Session.init : Session String (List StdString) (List String)).run ToV8
        [.submit (fun _ => .ok [utf8 "a.esp"])]).step ToV8 (.submit (fun _ => .ok [])) =
      ((Session.init : Session String (List StdString) (List String)).run ToV8
        [.submit (fun _ => .ok [utf8 "a.esp"])], some .BusyException) := by
  rcases (single_in_flight_guard (V := List String) ToV8
    [.submit (fun _ => .ok [utf8 "a.esp"])] (fun _ => .ok [])).2.1 with h | h
  · simp [Session.run, Session.step, Session.submit, Session.init] at h
  · exact h

end NodeLoot
